import Mathlib

/-!
Verification of the image-fitting geometry and layout-state logic of
`app/src/ui/diff/image-diffs/modified-image-diff.tsx`.

The source computes over JavaScript numbers.  We embed the arithmetic over
`ℚ`.  The only non-finite value reachable in the source is the IEEE `+Infinity`
produced when a guarded division `a / b` runs with `b = 0`: each such division
is guarded by `b < a`, so the numerator is then strictly positive and the IEEE
result is `+Infinity` (never `-Infinity` or `NaN`).  We model such ratio
values by `JsNum := Option ℚ`, where `none` stands for `+Infinity`.
-/

/-- `IImageSize` from the source: a width/height pair. -/
structure IImageSize where
  width : ℚ
  height : ℚ
deriving DecidableEq, Repr

/-- A JavaScript number as it occurs in the ratio computation: a finite
rational, or `none` for the IEEE `+Infinity` produced by a guarded division
of a positive numerator by zero. -/
abbrev JsNum : Type := Option ℚ

/-- JavaScript division `a / b` as it occurs under the guard `b < a`:
`b = 0` forces `0 < a`, so the IEEE result is `+Infinity` (`none`);
otherwise the exact rational quotient. -/
def jsDiv (a b : ℚ) : JsNum :=
  if b = 0 then none else some (a / b)

/-- JavaScript `<` on ratio values: `+Infinity` is greater than every finite
number and not less than itself. -/
def jsLt : JsNum → JsNum → Bool
  | none, _ => false
  | some _, none => true
  | some a, some b => decide (a < b)

/-- `Math.max(1, x)`: `+Infinity` absorbs, finite values clamp to `≥ 1`. -/
def jsMax1 : JsNum → JsNum
  | none => none
  | some a => some (max 1 a)

/-- JavaScript `x / r` for the final scaling step, where `r` is a ratio value
(`r ≥ 1` or `+Infinity`): a finite number divided by `+Infinity` is `0`. -/
def jsDivBy (x : ℚ) : JsNum → ℚ
  | none => 0
  | some r => x / r

/-- `SIZE_CONTROLS = 60` from the source. -/
def SIZE_CONTROLS : ℚ := 60

/-- `PADDING = 20` from the source. -/
def PADDING : ℚ := 20

/-- The local `containerWidth` of `getFittingSize`:
`containerSize.width - PADDING`. -/
def usableWidth (containerSize : IImageSize) : ℚ :=
  containerSize.width - PADDING

/-- The local `containerHeight` of `getFittingSize`:
`containerSize.height - PADDING - SIZE_CONTROLS`. -/
def usableHeight (containerSize : IImageSize) : ℚ :=
  containerSize.height - PADDING - SIZE_CONTROLS

/-- The local `heightRatio` of `getFittingSize`:
`containerHeight < imageSize.height ? imageSize.height / containerHeight : 1`. -/
def heightRatio (imageSize containerSize : IImageSize) : JsNum :=
  if usableHeight containerSize < imageSize.height then
    jsDiv imageSize.height (usableHeight containerSize)
  else some 1

/-- The local `widthRatio` of `getFittingSize`:
`containerWidth < imageSize.width ? imageSize.width / containerWidth : 1`. -/
def widthRatio (imageSize containerSize : IImageSize) : JsNum :=
  if usableWidth containerSize < imageSize.width then
    jsDiv imageSize.width (usableWidth containerSize)
  else some 1

/-- The local `ratio` of `getFittingSize`:
`let ratio = Math.max(1, widthRatio); if (widthRatio < heightRatio) ratio = Math.max(1, heightRatio)`. -/
def ratio (imageSize containerSize : IImageSize) : JsNum :=
  if jsLt (widthRatio imageSize containerSize) (heightRatio imageSize containerSize) then
    jsMax1 (heightRatio imageSize containerSize)
  else
    jsMax1 (widthRatio imageSize containerSize)

/-- `getFittingSize` from the source (lines 37–62): returns
`{ width: imageSize.width / ratio, height: imageSize.height / ratio }`. -/
def getFittingSize (imageSize containerSize : IImageSize) : IImageSize :=
  { width := jsDivBy imageSize.width (ratio imageSize containerSize)
    height := jsDivBy imageSize.height (ratio imageSize containerSize) }

/-- A division with zero denominator occurs during `getFittingSize`:
either a guarded ratio division runs with a zero usable dimension, or the
final scaling divides by a zero ratio. -/
def dividesByZero (imageSize containerSize : IImageSize) : Prop :=
  (usableHeight containerSize < imageSize.height ∧ usableHeight containerSize = 0)
  ∨ (usableWidth containerSize < imageSize.width ∧ usableWidth containerSize = 0)
  ∨ ratio imageSize containerSize = some 0

instance (imageSize containerSize : IImageSize) :
    Decidable (dividesByZero imageSize containerSize) := by
  unfold dividesByZero
  infer_instance

/-- `jsMax1` never returns a finite value below `1`. -/
lemma jsMax1_cases (x : JsNum) : jsMax1 x = none ∨ ∃ r, jsMax1 x = some r ∧ 1 ≤ r := by
  cases x with
  | none => exact Or.inl rfl
  | some a => exact Or.inr ⟨max 1 a, rfl, le_max_left 1 a⟩

/-- The chosen ratio is `+Infinity` or a finite value `≥ 1`. -/
lemma ratio_cases (s c : IImageSize) :
    ratio s c = none ∨ ∃ r, ratio s c = some r ∧ 1 ≤ r := by
  unfold ratio
  split <;> exact jsMax1_cases _

/-- Dividing `0` by any ratio value gives `0`. -/
lemma jsDivBy_zero (j : JsNum) : jsDivBy 0 j = 0 := by
  cases j <;> simp [jsDivBy]

/-- When the ratio is finite, `getFittingSize` divides both dimensions by it. -/
lemma getFittingSize_of_ratio_some {s c : IImageSize} {r : ℚ}
    (h : ratio s c = some r) :
    getFittingSize s c = ⟨s.width / r, s.height / r⟩ := by
  simp [getFittingSize, h, jsDivBy]

/-- When the ratio is `+Infinity`, `getFittingSize` returns `{0, 0}`. -/
lemma getFittingSize_of_ratio_none {s c : IImageSize}
    (h : ratio s c = none) :
    getFittingSize s c = ⟨0, 0⟩ := by
  simp [getFittingSize, h, jsDivBy]

/-- When the ratio is exactly `1`, `getFittingSize` is the identity. -/
lemma getFittingSize_of_ratio_one {s c : IImageSize}
    (h : ratio s c = some 1) :
    getFittingSize s c = s := by
  simp [getFittingSize, h, jsDivBy]

/-- The zero image size is a fixed point of `getFittingSize` for every container. -/
lemma getFittingSize_zero (c : IImageSize) : getFittingSize ⟨0, 0⟩ c = ⟨0, 0⟩ := by
  simp [getFittingSize, jsDivBy_zero]

/-- A clamped ratio expression (`u < x ? x / u : 1`) that yields a finite value
above `1` forces a positive usable extent strictly below the image extent,
and equals their quotient. -/
lemma clamp_gt_one {x u q : ℚ}
    (h : (if u < x then jsDiv x u else some 1) = some q) (hq : 1 < q) :
    0 < u ∧ u < x ∧ q = x / u := by
  split at h
  case isFalse =>
    simp only [Option.some.injEq] at h
    exact absurd (h ▸ hq) (lt_irrefl _)
  case isTrue hlt =>
    unfold jsDiv at h
    split at h
    · exact absurd h (by simp)
    case isFalse hz =>
      simp only [Option.some.injEq] at h
      subst h
      refine ⟨?_, hlt, rfl⟩
      by_contra hnonpos
      push_neg at hnonpos
      have hneg : u < 0 := lt_of_le_of_ne hnonpos hz
      have : x / u ≤ 1 := by
        rw [div_le_one_iff]
        exact Or.inr (Or.inr ⟨hneg, le_of_lt hlt⟩)
      exact absurd hq (not_lt.mpr this)

/-- A clamped ratio expression is finite and at most `1` whenever the image
extent is bounded by the usable extent in the relevant sign regime. -/
lemma clamp_le_one {x u : ℚ}
    (h0 : u = 0 → x ≤ 0) (h1 : 0 < u → x ≤ u) :
    ∃ a, (if u < x then jsDiv x u else some 1) = some a ∧ a ≤ 1 := by
  split
  case isFalse => exact ⟨1, rfl, le_refl 1⟩
  case isTrue hlt =>
    rcases lt_trichotomy u 0 with hneg | hz | hpos
    · refine ⟨x / u, ?_, ?_⟩
      · simp [jsDiv, ne_of_lt hneg]
      · rw [div_le_one_iff]
        exact Or.inr (Or.inr ⟨hneg, le_of_lt hlt⟩)
    · exact absurd (lt_of_lt_of_le hlt (hz ▸ h0 hz)) (lt_irrefl u)
    · exact absurd (h1 hpos) (not_le.mpr hlt)

/-- If both ratios are finite and at most `1`, the chosen ratio is exactly `1`. -/
lemma ratio_eq_one_of_le {s c : IImageSize}
    (hw : ∃ a, widthRatio s c = some a ∧ a ≤ 1)
    (hh : ∃ b, heightRatio s c = some b ∧ b ≤ 1) :
    ratio s c = some 1 := by
  obtain ⟨a, hwa, ha⟩ := hw
  obtain ⟨b, hhb, hb⟩ := hh
  unfold ratio
  rw [hwa, hhb]
  unfold jsLt jsMax1
  split
  · exact congrArg some (max_eq_left hb)
  · exact congrArg some (max_eq_left ha)

/-- A `jsMax1` value that is finite and above `1` came from that same finite value. -/
lemma jsMax1_eq_some_gt_one {x : JsNum} {r : ℚ} (h : jsMax1 x = some r) (hr : 1 < r) :
    x = some r := by
  cases x with
  | none => exact absurd h (by simp [jsMax1])
  | some a =>
    simp only [jsMax1, Option.some.injEq] at h
    rcases le_or_lt a 1 with hle | hgt
    · rw [max_eq_left hle] at h
      exact absurd (h ▸ hr) (lt_irrefl _)
    · rw [max_eq_right (le_of_lt hgt)] at h
      exact congrArg some h

/-- If `jsLt x (some r)` holds then `x` is finite and below `r`. -/
lemma jsLt_some_true {x : JsNum} {r : ℚ} (h : jsLt x (some r) = true) :
    ∃ a, x = some a ∧ a < r := by
  cases x with
  | none => exact absurd h (by simp [jsLt])
  | some a =>
    simp only [jsLt, decide_eq_true_eq] at h
    exact ⟨a, rfl, h⟩

/-- If `jsLt (some r) y` fails then `y` is finite and at most `r`. -/
lemma jsLt_some_false {y : JsNum} {r : ℚ} (h : ¬jsLt (some r) y = true) :
    ∃ b, y = some b ∧ b ≤ r := by
  cases y with
  | none => exact absurd rfl h
  | some b =>
    simp only [jsLt, decide_eq_true_eq] at h
    exact ⟨b, rfl, le_of_not_lt h⟩

/-- The non-binding dimension of a fitted size stays within its usable extent:
if the clamped ratio of a dimension is finite and at most the binding ratio
`r > 1`, then that dimension divided by `r` is bounded by its usable extent
(relative to the sign of the extent). -/
lemma clamp_bound {x u r a : ℚ} (h1r : 1 < r)
    (h : (if u < x then jsDiv x u else some 1) = some a) (har : a ≤ r) :
    (u = 0 → x / r ≤ 0) ∧ (0 < u → x / r ≤ u) := by
  have hr_pos : 0 < r := lt_trans zero_lt_one h1r
  split at h
  case isTrue hlt =>
    unfold jsDiv at h
    split at h
    case isTrue hz => exact absurd h (by simp)
    case isFalse hz =>
      simp only [Option.some.injEq] at h
      refine ⟨fun h0 => absurd h0 hz, fun hu => ?_⟩
      have hxu : x / u ≤ r := by rw [h]; exact har
      rw [div_le_iff₀ hu] at hxu
      rw [div_le_iff₀ hr_pos]
      linarith
  case isFalse hlt =>
    push_neg at hlt
    refine ⟨fun h0 => ?_, fun hu => ?_⟩
    · exact div_nonpos_iff.mpr (Or.inr ⟨h0 ▸ hlt, le_of_lt hr_pos⟩)
    · rcases le_or_lt x 0 with hx0 | hx0
      · exact le_trans (div_nonpos_iff.mpr (Or.inr ⟨hx0, le_of_lt hr_pos⟩)) (le_of_lt hu)
      · exact le_trans (div_le_self (le_of_lt hx0) (le_of_lt h1r)) hlt

/-- Applying `getFittingSize` once makes the second-pass ratio exactly `1`
whenever the first-pass ratio was a finite value above `1`. -/
lemma ratio_refit_eq_one {s c : IImageSize} {r : ℚ}
    (hr : ratio s c = some r) (h1r : 1 < r) :
    ratio (getFittingSize s c) c = some 1 := by
  have hr_pos : 0 < r := lt_trans zero_lt_one h1r
  have hfit := getFittingSize_of_ratio_some hr
  unfold ratio at hr
  split at hr
  case isTrue hlt =>
    have hH : heightRatio s c = some r := jsMax1_eq_some_gt_one hr h1r
    have hHc : 0 < usableHeight c ∧ usableHeight c < s.height ∧
        r = s.height / usableHeight c := by
      apply clamp_gt_one ?_ h1r
      unfold heightRatio at hH
      exact hH
    obtain ⟨huH, hlt_h, hreq⟩ := hHc
    rw [hH] at hlt
    obtain ⟨a, hWa, haR⟩ := jsLt_some_true hlt
    have hh_pos : 0 < s.height := lt_trans huH hlt_h
    have hfh : (getFittingSize s c).height = usableHeight c := by
      rw [hfit]
      show s.height / r = usableHeight c
      rw [hreq, div_div_eq_mul_div]
      exact mul_div_cancel_left₀ _ (ne_of_gt hh_pos)
    have hfw : (getFittingSize s c).width = s.width / r := by rw [hfit]
    apply ratio_eq_one_of_le
    · unfold widthRatio
      rw [hfw]
      unfold widthRatio at hWa
      exact clamp_le_one (clamp_bound h1r hWa (le_of_lt haR)).1
        (clamp_bound h1r hWa (le_of_lt haR)).2
    · unfold heightRatio
      rw [hfh, if_neg (lt_irrefl _)]
      exact ⟨1, rfl, le_refl 1⟩
  case isFalse hnlt =>
    have hW : widthRatio s c = some r := jsMax1_eq_some_gt_one hr h1r
    have hWc : 0 < usableWidth c ∧ usableWidth c < s.width ∧
        r = s.width / usableWidth c := by
      apply clamp_gt_one ?_ h1r
      unfold widthRatio at hW
      exact hW
    obtain ⟨huW, hlt_w, hreq⟩ := hWc
    rw [hW] at hnlt
    obtain ⟨b, hHb, hbR⟩ := jsLt_some_false hnlt
    have hw_pos : 0 < s.width := lt_trans huW hlt_w
    have hfw : (getFittingSize s c).width = usableWidth c := by
      rw [hfit]
      show s.width / r = usableWidth c
      rw [hreq, div_div_eq_mul_div]
      exact mul_div_cancel_left₀ _ (ne_of_gt hw_pos)
    have hfh : (getFittingSize s c).height = s.height / r := by rw [hfit]
    apply ratio_eq_one_of_le
    · unfold widthRatio
      rw [hfw, if_neg (lt_irrefl _)]
      exact ⟨1, rfl, le_refl 1⟩
    · unfold heightRatio
      rw [hfh]
      unfold heightRatio at hHb
      exact clamp_le_one (clamp_bound h1r hHb hbR).1 (clamp_bound h1r hHb hbR).2

/-- The component state (`IModifiedImageDiffState` from the source): the slider
`value` and the two measured natural image sizes, each `null` until its image
has loaded. -/
structure IModifiedImageDiffState where
  value : ℚ
  previousImageSize : Option IImageSize
  currentImageSize : Option IImageSize
deriving DecidableEq, Repr

/-- The state set in the constructor:
`{ value: 1, previousImageSize: null, currentImageSize: null }`. -/
def initialState : IModifiedImageDiffState :=
  { value := 1, previousImageSize := none, currentImageSize := none }

/-- The three events that mutate the component state: `onValueChange` (with the
parsed float of the range input's value), `onPreviousImageLoad` and
`onCurrentImageLoad` (each with the loaded image's natural size). -/
inductive DiffEvent where
  | valueChange (v : ℚ)
  | previousImageLoad (size : IImageSize)
  | currentImageLoad (size : IImageSize)
deriving DecidableEq, Repr

/-- The `setState` calls of the three event handlers: `onValueChange` stores the
parsed value, each image-load handler stores only its own image's size. -/
def step (s : IModifiedImageDiffState) : DiffEvent → IModifiedImageDiffState
  | .valueChange v => { s with value := v }
  | .previousImageLoad size => { s with previousImageSize := some size }
  | .currentImageLoad size => { s with currentImageSize := some size }

/-- Values the environment can deliver: the sliders are rendered with
`min={0}` and `max={1}`, so the DOM reports a value within `[0, 1]`;
image-load events are unconstrained. -/
def eventWellFormed : DiffEvent → Prop
  | .valueChange v => 0 ≤ v ∧ v ≤ 1
  | .previousImageLoad _ => True
  | .currentImageLoad _ => True

/-- States reachable from the constructor through well-formed events. -/
inductive Reachable : IModifiedImageDiffState → Prop
  | initial : Reachable initialState
  | transition (s : IModifiedImageDiffState) (e : DiffEvent) :
      Reachable s → eventWellFormed e → Reachable (step s e)

/-- The record returned by `getScaledDimensions`. -/
structure IScaledDimensions where
  height : ℚ
  width : ℚ
  containerHeight : ℚ
  containerWidth : ℚ
deriving DecidableEq, Repr

/-- `getScaledDimensions` from the source (lines 101–127).  The container ref
may be `null`; `(this.container && rect.width) || 0` yields `0` in that case.
`height`/`width` stay `0` unless both image sizes have been measured; otherwise
they combine the two fitted sizes via
`Math.max(previousSize.height, currentSize.height)` and
`Math.max(previousSize.width, currentSize.height)` (the latter mixing
dimensions, exactly as written in the source). -/
def getScaledDimensions (previousImageSize currentImageSize : Option IImageSize)
    (container : Option IImageSize) : IScaledDimensions :=
  let containerWidth : ℚ := match container with
    | some rect => rect.width
    | none => 0
  let containerHeight : ℚ := match container with
    | some rect => rect.height
    | none => 0
  let containerSize : IImageSize := { width := containerWidth, height := containerHeight }
  match previousImageSize, currentImageSize with
  | some previousImageSize, some currentImageSize =>
    let previousSize := getFittingSize previousImageSize containerSize
    let currentSize := getFittingSize currentImageSize containerSize
    { height := max previousSize.height currentSize.height
      width := max previousSize.width currentSize.height
      containerHeight := containerHeight
      containerWidth := containerWidth }
  | _, _ =>
    { height := 0, width := 0
      containerHeight := containerHeight, containerWidth := containerWidth }

/-- The measured container size used inside `getScaledDimensions`: the ref's
bounding rectangle, or `{0, 0}` when the ref is `null`. -/
def measuredContainerSize : Option IImageSize → IImageSize
  | some rect => { width := rect.width, height := rect.height }
  | none => { width := 0, height := 0 }

/-- At a zero-sized container the usable area is negative, both clamped ratios
are at most `1`, and `getFittingSize` returns every image size unchanged. -/
lemma getFittingSize_zero_container (s : IImageSize) :
    getFittingSize s ⟨0, 0⟩ = s := by
  apply getFittingSize_of_ratio_one
  apply ratio_eq_one_of_le
  · unfold widthRatio
    apply clamp_le_one
    · intro h0
      norm_num [usableWidth, PADDING] at h0
    · intro hpos
      norm_num [usableWidth, PADDING] at hpos
  · unfold heightRatio
    apply clamp_le_one
    · intro h0
      norm_num [usableHeight, PADDING, SIZE_CONTROLS] at h0
    · intro hpos
      norm_num [usableHeight, PADDING, SIZE_CONTROLS] at hpos

/-- C1: for every image size whose width is at most the usable container width
(container width minus the padding constant 20) and whose height is at most the
usable container height (container height minus padding 20 and the control-bar
height 60), `getFittingSize` returns the image size unchanged; both ratios
are 1. -/
theorem claim_C1 (s c : IImageSize)
    (hw : s.width ≤ usableWidth c) (hh : s.height ≤ usableHeight c) :
    widthRatio s c = some 1 ∧ heightRatio s c = some 1 ∧ getFittingSize s c = s := by
  have hW : widthRatio s c = some 1 := by
    unfold widthRatio
    rw [if_neg (not_lt.mpr hw)]
  have hH : heightRatio s c = some 1 := by
    unfold heightRatio
    rw [if_neg (not_lt.mpr hh)]
  exact ⟨hW, hH, getFittingSize_of_ratio_one
    (ratio_eq_one_of_le ⟨1, hW, le_refl 1⟩ ⟨1, hH, le_refl 1⟩)⟩

/-- Witness for C1 at image `{10, 10}` inside container `{620, 300}`. -/
theorem claim_C1_witness :
    widthRatio ⟨10, 10⟩ ⟨620, 300⟩ = some 1 ∧ heightRatio ⟨10, 10⟩ ⟨620, 300⟩ = some 1 ∧
    getFittingSize ⟨10, 10⟩ ⟨620, 300⟩ = ⟨10, 10⟩ :=
  claim_C1 ⟨10, 10⟩ ⟨620, 300⟩
    (by norm_num [usableWidth, PADDING])
    (by norm_num [usableHeight, PADDING, SIZE_CONTROLS])

/-- C2: for every image size strictly exceeding a positive usable area in both
dimensions, `getFittingSize` divides by the larger of the two ratios
`width / usableWidth` and `height / usableHeight`; the output fits within the
usable area and preserves the aspect ratio exactly in rational arithmetic. -/
theorem claim_C2 (s c : IImageSize)
    (hW : 0 < usableWidth c) (hH : 0 < usableHeight c)
    (hw : usableWidth c < s.width) (hh : usableHeight c < s.height) :
    ratio s c = some (max (s.width / usableWidth c) (s.height / usableHeight c)) ∧
    (getFittingSize s c).width ≤ usableWidth c ∧
    (getFittingSize s c).height ≤ usableHeight c ∧
    (getFittingSize s c).width * s.height = (getFittingSize s c).height * s.width := by
  set a := s.width / usableWidth c with ha_def
  set b := s.height / usableHeight c with hb_def
  have ha1 : 1 < a := (one_lt_div hW).mpr hw
  have hb1 : 1 < b := (one_lt_div hH).mpr hh
  have hWr : widthRatio s c = some a := by
    unfold widthRatio
    rw [if_pos hw]
    unfold jsDiv
    rw [if_neg (ne_of_gt hW)]
  have hHr : heightRatio s c = some b := by
    unfold heightRatio
    rw [if_pos hh]
    unfold jsDiv
    rw [if_neg (ne_of_gt hH)]
  have hrat : ratio s c = some (max a b) := by
    unfold ratio
    rw [hWr, hHr]
    simp only [jsLt, jsMax1, decide_eq_true_eq]
    rcases lt_or_le a b with hab | hba
    · rw [if_pos hab, max_eq_right (le_of_lt (lt_trans ha1 hab)),
        max_eq_right (le_of_lt hab)]
    · rw [if_neg (not_lt.mpr hba), max_eq_right (le_of_lt ha1), max_eq_left hba]
  have hm1 : 1 < max a b := lt_max_of_lt_left ha1
  have hm_pos : 0 < max a b := lt_trans zero_lt_one hm1
  have hformula := getFittingSize_of_ratio_some hrat
  refine ⟨hrat, ?_, ?_, ?_⟩
  · rw [hformula]
    show s.width / max a b ≤ usableWidth c
    rw [div_le_iff₀ hm_pos]
    have : s.width = usableWidth c * a := by
      rw [ha_def, mul_comm, div_mul_cancel₀ _ (ne_of_gt hW)]
    rw [this]
    exact mul_le_mul_of_nonneg_left (le_max_left a b) (le_of_lt hW)
  · rw [hformula]
    show s.height / max a b ≤ usableHeight c
    rw [div_le_iff₀ hm_pos]
    have : s.height = usableHeight c * b := by
      rw [hb_def, mul_comm, div_mul_cancel₀ _ (ne_of_gt hH)]
    rw [this]
    exact mul_le_mul_of_nonneg_left (le_max_right a b) (le_of_lt hH)
  · rw [hformula]
    show s.width / max a b * s.height = s.height / max a b * s.width
    ring

/-- Witness for C2 at image `{1000, 500}` inside container `{620, 300}`. -/
theorem claim_C2_witness :
    ratio ⟨1000, 500⟩ ⟨620, 300⟩ =
      some (max ((1000 : ℚ) / usableWidth ⟨620, 300⟩) ((500 : ℚ) / usableHeight ⟨620, 300⟩)) ∧
    (getFittingSize ⟨1000, 500⟩ ⟨620, 300⟩).width ≤ usableWidth ⟨620, 300⟩ ∧
    (getFittingSize ⟨1000, 500⟩ ⟨620, 300⟩).height ≤ usableHeight ⟨620, 300⟩ ∧
    (getFittingSize ⟨1000, 500⟩ ⟨620, 300⟩).width * 500 =
      (getFittingSize ⟨1000, 500⟩ ⟨620, 300⟩).height * 1000 :=
  claim_C2 ⟨1000, 500⟩ ⟨620, 300⟩
    (by norm_num [usableWidth, PADDING])
    (by norm_num [usableHeight, PADDING, SIZE_CONTROLS])
    (by norm_num [usableWidth, PADDING])
    (by norm_num [usableHeight, PADDING, SIZE_CONTROLS])

/-- C3: for every image size exceeding a positive usable area in exactly one
dimension, the output exactly fills that dimension's usable extent, and the
other dimension is the natural size divided by the same ratio. -/
theorem claim_C3 (s c : IImageSize)
    (hW : 0 < usableWidth c) (hH : 0 < usableHeight c) :
    (s.width ≤ usableWidth c → usableHeight c < s.height →
      getFittingSize s c =
        ⟨s.width / (s.height / usableHeight c), usableHeight c⟩) ∧
    (usableWidth c < s.width → s.height ≤ usableHeight c →
      getFittingSize s c =
        ⟨usableWidth c, s.height / (s.width / usableWidth c)⟩) := by
  constructor
  · intro hw hh
    have hb1 : 1 < s.height / usableHeight c := (one_lt_div hH).mpr hh
    have hh_pos : 0 < s.height := lt_trans hH hh
    have hWr : widthRatio s c = some 1 := by
      unfold widthRatio
      rw [if_neg (not_lt.mpr hw)]
    have hHr : heightRatio s c = some (s.height / usableHeight c) := by
      unfold heightRatio
      rw [if_pos hh]
      unfold jsDiv
      rw [if_neg (ne_of_gt hH)]
    have hrat : ratio s c = some (s.height / usableHeight c) := by
      unfold ratio
      rw [hWr, hHr]
      simp only [jsLt, jsMax1, decide_eq_true_eq]
      rw [if_pos hb1, max_eq_right (le_of_lt hb1)]
    rw [getFittingSize_of_ratio_some hrat]
    simp only [IImageSize.mk.injEq, true_and, and_true, eq_self_iff_true]
    rw [div_div_eq_mul_div]
    exact mul_div_cancel_left₀ _ (ne_of_gt hh_pos)
  · intro hw hh
    have ha1 : 1 < s.width / usableWidth c := (one_lt_div hW).mpr hw
    have hw_pos : 0 < s.width := lt_trans hW hw
    have hWr : widthRatio s c = some (s.width / usableWidth c) := by
      unfold widthRatio
      rw [if_pos hw]
      unfold jsDiv
      rw [if_neg (ne_of_gt hW)]
    have hHr : heightRatio s c = some 1 := by
      unfold heightRatio
      rw [if_neg (not_lt.mpr hh)]
    have hrat : ratio s c = some (s.width / usableWidth c) := by
      unfold ratio
      rw [hWr, hHr]
      simp only [jsLt, jsMax1, decide_eq_true_eq]
      rw [if_neg (not_lt.mpr (le_of_lt ha1)), max_eq_right (le_of_lt ha1)]
    rw [getFittingSize_of_ratio_some hrat]
    simp only [IImageSize.mk.injEq, true_and, and_true, eq_self_iff_true]
    rw [div_div_eq_mul_div]
    exact mul_div_cancel_left₀ _ (ne_of_gt hw_pos)

/-- Witness for C3 at image `{100, 500}` (height-only overflow) inside
container `{620, 300}`: the output is `{44, 220}`. -/
theorem claim_C3_witness :
    getFittingSize ⟨100, 500⟩ ⟨620, 300⟩ =
      ⟨100 / ((500 : ℚ) / usableHeight ⟨620, 300⟩), usableHeight ⟨620, 300⟩⟩ :=
  (claim_C3 ⟨100, 500⟩ ⟨620, 300⟩
      (by norm_num [usableWidth, PADDING])
      (by norm_num [usableHeight, PADDING, SIZE_CONTROLS])).1
    (by norm_num [usableWidth, PADDING])
    (by norm_num [usableHeight, PADDING, SIZE_CONTROLS])

/-- C4: `getFittingSize` is idempotent: refitting its own output against the
same container changes nothing, for every image size and container size. -/
theorem claim_C4 (s c : IImageSize) :
    getFittingSize (getFittingSize s c) c = getFittingSize s c := by
  rcases ratio_cases s c with hnone | ⟨r, hr, h1r⟩
  · rw [getFittingSize_of_ratio_none hnone]
    exact getFittingSize_zero c
  · rcases eq_or_lt_of_le h1r with heq | hlt
    · have hone : ratio s c = some 1 := by rw [hr, ← heq]
      rw [getFittingSize_of_ratio_one hone, getFittingSize_of_ratio_one hone]
    · exact getFittingSize_of_ratio_one (ratio_refit_eq_one hr hlt)

/-- C5: the worked example: image `{1000, 500}` in container `{620, 300}` has
usable area `{600, 220}`, width ratio `1000/600`, height ratio `500/220`, the
height ratio binds, and the output is exactly `{440, 220}`. -/
theorem claim_C5 :
    usableWidth ⟨620, 300⟩ = 600 ∧ usableHeight ⟨620, 300⟩ = 220 ∧
    widthRatio ⟨1000, 500⟩ ⟨620, 300⟩ = some (1000 / 600) ∧
    heightRatio ⟨1000, 500⟩ ⟨620, 300⟩ = some (500 / 220) ∧
    jsLt (widthRatio ⟨1000, 500⟩ ⟨620, 300⟩) (heightRatio ⟨1000, 500⟩ ⟨620, 300⟩) = true ∧
    ratio ⟨1000, 500⟩ ⟨620, 300⟩ = some (500 / 220) ∧
    getFittingSize ⟨1000, 500⟩ ⟨620, 300⟩ = ⟨440, 220⟩ := by
  norm_num [getFittingSize, ratio, heightRatio, widthRatio, usableWidth, usableHeight,
    jsDiv, jsLt, jsMax1, jsDivBy, PADDING, SIZE_CONTROLS]

/-- C6 counterexample: at image `{100, 100}` (positive dimensions) and
container `{500, 80}` the usable height is exactly `0` and below the image
height, so `getFittingSize` does perform a division by zero (the IEEE result
is `Infinity`), refuting the claim that no division by zero ever occurs. -/
theorem claim_C6_counterexample :
    0 < (IImageSize.mk 100 100).width ∧ 0 < (IImageSize.mk 100 100).height ∧
    dividesByZero ⟨100, 100⟩ ⟨500, 80⟩ := by
  refine ⟨by norm_num, by norm_num, Or.inl ⟨?_, ?_⟩⟩ <;>
    norm_num [usableHeight, PADDING, SIZE_CONTROLS]

/-- C6 (amended): for every image size with positive dimensions and every
container size — including the zero container and containers smaller than the
reserved space — `getFittingSize` returns a (finite rational) pair with
non-negative width and height, and a division by zero can occur only when a
usable dimension is exactly zero (where the IEEE quotient is `Infinity`, not
an error). -/
theorem claim_C6 (s c : IImageSize) (hw : 0 < s.width) (hh : 0 < s.height) :
    0 ≤ (getFittingSize s c).width ∧ 0 ≤ (getFittingSize s c).height ∧
    (dividesByZero s c → usableHeight c = 0 ∨ usableWidth c = 0) := by
  have hnn : 0 ≤ (getFittingSize s c).width ∧ 0 ≤ (getFittingSize s c).height := by
    rcases ratio_cases s c with hnone | ⟨r, hr, h1r⟩
    · rw [getFittingSize_of_ratio_none hnone]
      exact ⟨le_refl 0, le_refl 0⟩
    · rw [getFittingSize_of_ratio_some hr]
      have hr_pos : (0 : ℚ) ≤ r := le_trans zero_le_one h1r
      exact ⟨div_nonneg (le_of_lt hw) hr_pos, div_nonneg (le_of_lt hh) hr_pos⟩
  refine ⟨hnn.1, hnn.2, fun hdz => ?_⟩
  rcases hdz with ⟨_, h0⟩ | ⟨_, h0⟩ | hrat0
  · exact Or.inl h0
  · exact Or.inr h0
  · rcases ratio_cases s c with hnone | ⟨r, hr, h1r⟩
    · rw [hnone] at hrat0
      exact absurd hrat0 (by simp)
    · rw [hr] at hrat0
      have : r = 0 := Option.some.injEq _ _ ▸ hrat0
      rw [this] at h1r
      exact absurd h1r (by norm_num)

/-- Witness for C6 (amended) at image `{100, 100}` and container `{500, 80}`
(usable height exactly zero). -/
theorem claim_C6_witness :
    0 ≤ (getFittingSize ⟨100, 100⟩ ⟨500, 80⟩).width ∧
    0 ≤ (getFittingSize ⟨100, 100⟩ ⟨500, 80⟩).height ∧
    (dividesByZero ⟨100, 100⟩ ⟨500, 80⟩ →
      usableHeight ⟨500, 80⟩ = 0 ∨ usableWidth ⟨500, 80⟩ = 0) :=
  claim_C6 ⟨100, 100⟩ ⟨500, 80⟩ (by norm_num) (by norm_num)

/-- C7 counterexample: with both image sizes loaded as `{100, 50}` and the
container measured as `{0, 0}`, `getScaledDimensions` returns height `50` and
width `100` — the natural sizes, not the degenerate zeros the claim states. -/
theorem claim_C7_counterexample :
    ¬((getScaledDimensions (some ⟨100, 50⟩) (some ⟨100, 50⟩) (some ⟨0, 0⟩)).height = 0 ∧
      (getScaledDimensions (some ⟨100, 50⟩) (some ⟨100, 50⟩) (some ⟨0, 0⟩)).width = 0) ∧
    (getScaledDimensions (some ⟨100, 50⟩) (some ⟨100, 50⟩) (some ⟨0, 0⟩)).height = 50 ∧
    (getScaledDimensions (some ⟨100, 50⟩) (some ⟨100, 50⟩) (some ⟨0, 0⟩)).width = 100 := by
  have h : getScaledDimensions (some ⟨100, 50⟩) (some ⟨100, 50⟩) (some ⟨0, 0⟩) =
      ⟨50, 100, 0, 0⟩ := by
    show IScaledDimensions.mk
        (max (getFittingSize ⟨100, 50⟩ ⟨0, 0⟩).height (getFittingSize ⟨100, 50⟩ ⟨0, 0⟩).height)
        (max (getFittingSize ⟨100, 50⟩ ⟨0, 0⟩).width (getFittingSize ⟨100, 50⟩ ⟨0, 0⟩).height)
        0 0 = ⟨50, 100, 0, 0⟩
    rw [getFittingSize_zero_container]
    norm_num
  rw [h]
  norm_num

/-- C7 (amended): when the container is measured as zero-sized and both image
sizes are loaded, `getScaledDimensions` raises no error, but the layout sizes
are not zero: the negative usable area clamps every ratio to `1`, so
`getFittingSize` returns each image size unchanged and the result is
height `max(prevHeight, curHeight)` and width `max(prevWidth, curHeight)`.
Zero layout sizes arise only while an image size is still unmeasured. -/
theorem claim_C7 (p cur : IImageSize) :
    getScaledDimensions (some p) (some cur) (some ⟨0, 0⟩) =
      ⟨max p.height cur.height, max p.width cur.height, 0, 0⟩ := by
  show IScaledDimensions.mk
      (max (getFittingSize p ⟨0, 0⟩).height (getFittingSize cur ⟨0, 0⟩).height)
      (max (getFittingSize p ⟨0, 0⟩).width (getFittingSize cur ⟨0, 0⟩).height)
      0 0 = _
  rw [getFittingSize_zero_container, getFittingSize_zero_container]

/-- C8: with both image sizes loaded, the shared bounding box has
height `max(fitted previous height, fitted current height)` and
width `max(fitted previous width, fitted current height)` — the
cross-dimension combination exactly as observed in the source. -/
theorem claim_C8 (p cur : IImageSize) (container : Option IImageSize) :
    (getScaledDimensions (some p) (some cur) container).height =
      max (getFittingSize p (measuredContainerSize container)).height
        (getFittingSize cur (measuredContainerSize container)).height ∧
    (getScaledDimensions (some p) (some cur) container).width =
      max (getFittingSize p (measuredContainerSize container)).width
        (getFittingSize cur (measuredContainerSize container)).height := by
  cases container <;> exact ⟨rfl, rfl⟩

/-- C9: the slider value is within `[0, 1]` in every reachable state: it is
initialised to `1`, the value-change event stores a value the `min={0}`
`max={1}` range input constrains to `[0, 1]`, and image-load events leave it
unchanged. -/
theorem claim_C9 (s : IModifiedImageDiffState) (h : Reachable s) :
    (0 ≤ s.value ∧ s.value ≤ 1) ∧
    ∀ size : IImageSize,
      (step s (DiffEvent.previousImageLoad size)).value = s.value ∧
      (step s (DiffEvent.currentImageLoad size)).value = s.value := by
  refine ⟨?_, fun size => ⟨rfl, rfl⟩⟩
  induction h with
  | initial => exact ⟨zero_le_one, le_refl 1⟩
  | transition s' e hre hwf ih =>
    cases e with
    | valueChange v => exact hwf
    | previousImageLoad size => exact ih
    | currentImageLoad size => exact ih

/-- Witness for C9: the initial state is reachable, its value is within
`[0, 1]`, and a concrete image-load event does not change it. -/
theorem claim_C9_witness :
    (0 ≤ initialState.value ∧ initialState.value ≤ 1) ∧
    (step initialState (DiffEvent.previousImageLoad ⟨100, 50⟩)).value = initialState.value ∧
    (step initialState (DiffEvent.currentImageLoad ⟨100, 50⟩)).value = initialState.value :=
  ⟨(claim_C9 initialState Reachable.initial).1,
    (claim_C9 initialState Reachable.initial).2 ⟨100, 50⟩⟩

/-- C10: while at least one measured image size is still `null`,
`getScaledDimensions` returns height `0` and width `0` regardless of the
container; both sizes start as `null`, and each event sets only its own
field. -/
theorem claim_C10 (previousImageSize currentImageSize container : Option IImageSize)
    (h : previousImageSize = none ∨ currentImageSize = none) :
    ((getScaledDimensions previousImageSize currentImageSize container).height = 0 ∧
     (getScaledDimensions previousImageSize currentImageSize container).width = 0) ∧
    (initialState.previousImageSize = none ∧ initialState.currentImageSize = none) ∧
    (∀ size : IImageSize,
      (step initialState (DiffEvent.previousImageLoad size)).currentImageSize = none ∧
      (step initialState (DiffEvent.currentImageLoad size)).previousImageSize = none) := by
  refine ⟨?_, ⟨rfl, rfl⟩, fun size => ⟨rfl, rfl⟩⟩
  rcases h with h | h
  · subst h
    cases currentImageSize <;> exact ⟨rfl, rfl⟩
  · subst h
    cases previousImageSize <;> exact ⟨rfl, rfl⟩

/-- Witness for C10 with the previous image still unloaded, the current image
measured, and a non-trivial container. -/
theorem claim_C10_witness :
    (getScaledDimensions none (some ⟨300, 200⟩) (some ⟨620, 300⟩)).height = 0 ∧
    (getScaledDimensions none (some ⟨300, 200⟩) (some ⟨620, 300⟩)).width = 0 :=
  (claim_C10 none (some ⟨300, 200⟩) (some ⟨620, 300⟩) (Or.inl rfl)).1
